import Mathlib

/-
Verification of the CICD_AA healing-pipeline backend.

The Python sources under CICD_AA/backend are shallowly embedded below:
pure text processing becomes Lean functions over strings, side-effecting
code (file writes, subprocess spawns, HTTP calls) becomes explicit state
passing with the external world supplied as oracle parameters, and Python
exceptions become an explicit result constructor.  All string operations
are re-implemented over character lists with structural recursion so that
every definition evaluates by kernel reduction.
-/

namespace CICD

/- ------------------------------------------------------------------
Python-semantics string helpers (LF line endings, ASCII case mapping).
------------------------------------------------------------------ -/

/-- Boolean test that the first list is a prefix of the second. -/
def listIsPrefix : List Char → List Char → Bool
  | [], _ => true
  | _ :: _, [] => false
  | a :: as, b :: bs => a == b && listIsPrefix as bs

/-- Remove the first list from the front of the second, when it is a prefix. -/
def stripPrefixList : List Char → List Char → Option (List Char)
  | [], l => some l
  | _ :: _, [] => none
  | a :: as, b :: bs => if a == b then stripPrefixList as bs else none

/-- Substring test on character lists (Python `needle in hay`). -/
def listContains (needle : List Char) : List Char → Bool
  | [] => listIsPrefix needle []
  | c :: rest => listIsPrefix needle (c :: rest) || listContains needle rest

/-- Python `needle in hay` on strings. -/
def pyContains (hay needle : String) : Bool :=
  listContains needle.data hay.data

/-- Worker for `pySplit`; the fuel argument starts at the haystack length. -/
def splitOnGo (sep : List Char) : Nat → List Char → List Char → List (List Char)
  | _, [], acc => [acc.reverse]
  | 0, hay, acc => [acc.reverse ++ hay]
  | fuel + 1, c :: rest, acc =>
    match stripPrefixList sep (c :: rest) with
    | some remainder => acc.reverse :: splitOnGo sep fuel remainder []
    | none => splitOnGo sep fuel rest (c :: acc)

/-- Python `s.split(sep)` for a non-empty separator. -/
def pySplit (s sep : String) : List String :=
  if sep.data.isEmpty then [s]
  else (splitOnGo sep.data s.data.length s.data []).map (fun l => String.mk l)

/-- Join a list of strings with a separator (Python `sep.join`). -/
def joinWith (sep : String) : List String → String
  | [] => ""
  | [x] => x
  | x :: y :: rest => x ++ sep ++ joinWith sep (y :: rest)

/-- Python `s.replace(old, new)` for a non-empty `old`. -/
def pyReplace (s old new : String) : String :=
  joinWith new (pySplit s old)

/-- Python `s.strip()` (whitespace trim at both ends). -/
def pyStrip (s : String) : String :=
  String.mk (((s.data.dropWhile Char.isWhitespace).reverse.dropWhile Char.isWhitespace).reverse)

/-- Python `s.lower()` (ASCII case mapping suffices for the keyword sets used). -/
def pyLower (s : String) : String := String.mk (s.data.map Char.toLower)

/-- Python `s.upper()`. -/
def pyUpper (s : String) : String := String.mk (s.data.map Char.toUpper)

/-- Suffix test on strings (Python `s.endswith(t)`). -/
def strEndsWith (s suffix : String) : Bool :=
  listIsPrefix suffix.data.reverse s.data.reverse

/-- Python `s[:n]`. -/
def pyTake (s : String) (n : Nat) : String := String.mk (s.data.take n)

/-- Python `int(s)` restricted to unsigned digit strings; other shapes
(signs, inner underscores) are treated as a `ValueError`, which is how the
parser consumes the result. -/
def pyParseNat (s : String) : Option Nat :=
  if s.data.isEmpty then none
  else if s.data.all Char.isDigit then
    some (s.data.foldl (fun n c => n * 10 + (c.toNat - 48)) 0)
  else none

/-- Worker for `pySplitWs`. -/
def splitWsGo : List Char → List Char → List (List Char)
  | [], acc => if acc.isEmpty then [] else [acc.reverse]
  | c :: rest, acc =>
    if c.isWhitespace then
      if acc.isEmpty then splitWsGo rest [] else acc.reverse :: splitWsGo rest []
    else splitWsGo rest (c :: acc)

/-- Python `s.split()` with no argument: split on whitespace runs, dropping empties. -/
def pySplitWs (s : String) : List String := (splitWsGo s.data []).map String.mk

/-- Python `s.rstrip(",")`. -/
def rstripComma (s : String) : String :=
  String.mk ((s.data.reverse.dropWhile (fun c => c == ',')).reverse)

/-- Python `s.lstrip("E")`. -/
def lstripE (s : String) : String :=
  String.mk (s.data.dropWhile (fun c => c == 'E'))

/-- Python `s.splitlines()` for LF-separated text: a trailing newline does
not contribute an empty final line, and the empty string has no lines. -/
def splitlines (s : String) : List String :=
  if s.data.isEmpty then []
  else
    let parts := pySplit s "\n"
    if s.data.getLast? == some '\n' then parts.dropLast else parts

/-- Python `s.split(sep, 1)`: the text before the first occurrence and the
rest (the whole string again when the separator does not occur). -/
def splitFirst (s sep : String) : String × String :=
  let parts := pySplit s sep
  (parts.headD s, joinWith sep parts.tail)

/-- First index of a string in a list (Python `list.index`, total version). -/
def indexOfStr (k : String) : List String → Nat
  | [] => 0
  | x :: rest => if x == k then 0 else indexOfStr k rest + 1

/- ------------------------------------------------------------------
docker_runner.py – failure classification and output parsing.
------------------------------------------------------------------ -/

/-- One parsed failure dict `{file, line, error_message, bug_type}` as
produced by `_parse_failures` in docker_runner.py. -/
structure FailureRecord where
  file : String
  line : Nat
  error_message : String
  bug_type : String
deriving DecidableEq

/-- Embedding of `_classify_bug` (docker_runner.py lines 312-328): ordered
keyword precedence over the lower-cased error text plus full output. -/
def _classify_bug (text : String) (full_output : String) : String :=
  let t := pyLower (text ++ " " ++ full_output)
  if pyContains t "indentationerror" || pyContains t "unexpected indent" || pyContains t "indentation" then
    "INDENTATION"
  else if pyContains t "syntaxerror" || pyContains t "invalid syntax" || pyContains t "syntax" then
    "SYNTAX"
  else if pyContains t "importerror" || pyContains t "modulenotfounderror" || pyContains t "cannot import" then
    "IMPORT"
  else if pyContains t "typeerror" || pyContains t "type error" || pyContains t "unsupported operand" then
    "TYPE_ERROR"
  else if pyContains t "flake8" || pyContains t "pylint" || pyContains t "pep8" || pyContains t "lint" || pyContains t "unused import" then
    "LINTING"
  else "LOGIC"

/-- The exception-name keywords scanned for below a traceback file reference
(docker_runner.py line 216). -/
def exceptionKeywords : List String :=
  ["SyntaxError", "IndentationError", "NameError", "TypeError", "AttributeError",
   "ImportError", "FileNotFoundError", "ModuleNotFoundError"]

/-- Embedding of the `cloned_repos` path relativization shared by both
parser branches (docker_runner.py lines 224-230 and 267-273). -/
def relativizeCloned (raw_path : String) : String :=
  let norm := pyReplace raw_path "\\" "/"
  if pyContains norm "cloned_repos" then
    let pp := pySplit norm "/"
    if pp.contains "cloned_repos" then
      let idx := indexOfStr "cloned_repos" pp
      if idx + 2 < pp.length then joinWith "/" (pp.drop (idx + 2)) else raw_path
    else raw_path
  else raw_path

/-- Scan the 1 to 3 lines after index `i` for a known exception keyword and
return the first stripped match, with the generic fallback message
(docker_runner.py lines 210-221). -/
def scanErrorMsg (lines : List String) (i : Nat) : String :=
  let cand := (List.range' 1 3).filterMap (fun j =>
    match lines.get? (i + j) with
    | some l =>
      let nl := pyStrip l
      if exceptionKeywords.any (fun k => pyContains nl k) then some nl else none
    | none => none)
  match cand with
  | [] => "Error detected in this file (check traceback)"
  | m :: _ => m

/-- Branch (a) of `_parse_failures`: a traceback-style `File "...", line N`
reference (docker_runner.py lines 198-242).  `none` models both the
caught IndexError and ValueError exits and the vendor-path filter, in all
of which nothing is appended. -/
def parseTracebackLine (line : String) (lines : List String) (i : Nat) (output : String) :
    Option FailureRecord :=
  let raw_path := (pySplit line "\"").getD 1 ""
  let rest := (pySplit line "\", line ").getD 1 ""
  match pySplitWs rest with
  | [] => none
  | tok :: _ =>
    match pyParseNat (rstripComma tok) with
    | none => none
    | some lineno =>
      let error_msg := scanErrorMsg lines i
      let source_file := relativizeCloned raw_path
      if !(pyContains raw_path "site-packages") && !(pyContains raw_path ".venv") then
        some ⟨source_file, lineno, error_msg, _classify_bug (error_msg ++ " " ++ output) ""⟩
      else none

/-- Branch (b) of `_parse_failures`: an inline `path.py:line: message`
reference (docker_runner.py lines 246-282).  The caller has already
screened vendor paths at whole-line level. -/
def parseInlineLine (line : String) (output : String) : Option FailureRecord :=
  let parts := splitFirst line ": "
  let file_line_part := pyStrip (lstripE (pyStrip parts.1))
  let error_msg := pyStrip parts.2
  let pp := pySplit file_line_part ":"
  if pp.length ≥ 2 then
    let raw_path := joinWith ":" pp.dropLast
    let lineno := (pyParseNat (pp.getLastD "")).getD 0
    let source_file := relativizeCloned raw_path
    some ⟨source_file, lineno, error_msg, _classify_bug (error_msg ++ " " ++ output) ""⟩
  else none

/-- Priority-1 scan of `_parse_failures`: walk every line looking for the
two specific file-reference shapes; the Bool is `found_specific_src`. -/
def scanPriority1 (lines : List String) (output : String) : List FailureRecord × Bool :=
  (List.range lines.length).foldl
    (fun acc i =>
      let line := pyStrip (lines.getD i "")
      if pyContains line "File \"" && pyContains line ".py\", line " then
        match parseTracebackLine line lines i output with
        | some f => (acc.1 ++ [f], true)
        | none => acc
      else if pyContains line ".py:" && pyContains line ": " then
        if pyContains line "site-packages" || pyContains line ".venv" || pyContains line "AppData" then
          acc
        else
          match parseInlineLine line output with
          | some f => (acc.1 ++ [f], true)
          | none => acc
      else acc)
    ([], false)

/-- Priority-2 fallback of `_parse_failures`: bare `FAILED`/`::ERROR`
markers attributed to the test file (docker_runner.py lines 287-297). -/
def scanPriority2 (lines : List String) (output : String) (test_file : String) :
    List FailureRecord :=
  lines.foldl
    (fun acc line =>
      if pyContains line "::ERROR" || (pyContains line "FAILED" && pyContains line "::") then
        let error_msg := pyStrip line
        acc ++ [⟨test_file, 0, error_msg, _classify_bug error_msg output⟩]
      else acc)
    []

/-- Deduplication by `(file, line, message[:100])`, first occurrence wins
(docker_runner.py lines 299-309). -/
def dedupFailures : List FailureRecord → List (String × Nat × String) → List FailureRecord
  | [], _ => []
  | f :: rest, seen =>
    let key := (f.file, f.line, pyTake f.error_message 100)
    if seen.contains key then dedupFailures rest seen
    else f :: dedupFailures rest (key :: seen)

/-- Embedding of `_parse_failures` (docker_runner.py lines 181-309). -/
def _parse_failures (output : String) (test_file : String) : List FailureRecord :=
  let lines := splitlines output
  let scanned := scanPriority1 lines output
  let failures :=
    if !scanned.2 then scanned.1 ++ scanPriority2 lines output test_file else scanned.1
  dedupFailures failures []

/-- The `TestResult` named tuple of docker_runner.py. -/
structure TestResult where
  test_file : String
  passed : Bool
  stdout : String
  stderr : String
  failures : List FailureRecord
deriving DecidableEq

/-- Outcome of the spawned test command seen by `_execute_and_parse`:
normal completion with a return code, `subprocess.TimeoutExpired`, or any
other exception raised while running the unit. -/
inductive ProcOutcome where
  | completed (returncode : Int) (stdout stderr : String)
  | timeout
  | exn (msg : String)
deriving DecidableEq

/-- Embedding of `_execute_and_parse` (docker_runner.py lines 108-178):
every outcome of the spawned command, including timeout and unexpected
exceptions, is converted into a `TestResult`. -/
def _execute_and_parse (test_file : String) (outcome : ProcOutcome) : TestResult :=
  match outcome with
  | .completed rc out err =>
    let stdout := out
    let stderr := err
    let combined := stdout ++ "\n" ++ stderr
    let passed := rc == 0
    let failures := _parse_failures combined test_file
    let failures :=
      if !passed && failures.isEmpty then
        [⟨test_file, 0,
          "Test runner execution failed (return code " ++ toString rc ++ ").\n" ++ pyStrip combined,
          "LOGIC"⟩]
      else failures
    ⟨test_file, passed, stdout, stderr, failures⟩
  | .timeout =>
    ⟨test_file, false, "", "Test run timed out after 300 seconds.",
      [⟨test_file, 0, "Timeout", "LOGIC"⟩]⟩
  | .exn msg =>
    ⟨test_file, false, "", msg, [⟨test_file, 0, msg, "LOGIC"⟩]⟩

/- ------------------------------------------------------------------
agents.py – the Fix Applicator `_apply_fix`.
------------------------------------------------------------------ -/

/-- Result of running a piece of Python code: a value, or an uncaught
exception carrying its message. -/
inductive PyResult (α : Type) where
  | ok (val : α)
  | exn (msg : String)
deriving DecidableEq

/-- One fix entry dict built by `_apply_fix` (agents.py lines 340-349).
The `error` field models the extra `"error"` key added when a caught
exception is recorded on the entry (line 377). -/
structure FixEntry where
  file : String
  bug_type : String
  line : Nat
  error_message : String
  commit_message : String
  status : String
  sha : Option String
  iteration : Nat
  error : Option String
deriving DecidableEq

/-- External world of one `_apply_fix` call: the target file content on
disk (`none` when the file does not exist), the patch text the
code-generation collaborator returns for the original content
(`generate_fix` itself never raises: it falls back to returning the
original code), whether the read or write raises an OS error, and the
commit message `explain_error` returns (total, with a templated
fallback). -/
structure FixEnv where
  disk : Option String
  llm : String → String
  readRaises : Option String
  writeRaises : Option String
  explain : String

/-- The vendor/dependency path signature rejected by the safety check in
`_apply_fix` (agents.py line 337). -/
def is_vendor_path (p : String) : Bool :=
  pyContains p "site-packages" || pyContains p ".venv" || pyContains p "AppData"

/-- Embedding of `_apply_fix` (agents.py lines 323-379).  The joined POSIX
path `repo_dir ++ "/" ++ file` models `str(Path(repo_dir) / src_file)`
after backslash normalization.  On a vendor path the source executes
`return fix_entry` before `fix_entry` is assigned (line 339 precedes the
assignment at line 340), so Python raises UnboundLocalError; the
embedding returns that exception.  The second component is the target
file content after the call. -/
def _apply_fix (repo_dir : String) (failure : FailureRecord) (iteration : Nat) (env : FixEnv) :
    PyResult FixEntry × Option String :=
  let src_file := failure.file
  let fpath_str := repo_dir ++ "/" ++ src_file
  if is_vendor_path fpath_str then
    (.exn "UnboundLocalError: local variable fix_entry referenced before assignment", env.disk)
  else
    let fix_entry : FixEntry :=
      ⟨src_file, failure.bug_type, failure.line, failure.error_message, "", "failed", none,
        iteration, none⟩
    match env.disk with
    | none => (.ok fix_entry, env.disk)
    | some original_code =>
      match env.readRaises with
      | some e => (.ok { fix_entry with error := some e }, env.disk)
      | none =>
        let fixed_code := env.llm original_code
        if fixed_code ≠ "" ∧ fixed_code ≠ original_code then
          match env.writeRaises with
          | some e => (.ok { fix_entry with error := some e }, env.disk)
          | none =>
            (.ok { fix_entry with commit_message := env.explain, status := "fixed" },
              some fixed_code)
        else
          (.ok fix_entry, env.disk)

/- ------------------------------------------------------------------
agents.py – the iterative heal loop of `run_pipeline`.
------------------------------------------------------------------ -/

/-- The retry bound (agents.py line 34). -/
def MAX_RETRIES : Nat := 5

/-- One iteration summary appended to `ci_timeline`
(agents.py lines 138-144). -/
structure IterationSummary where
  iteration : Nat
  status : String
  timestamp : Nat
  failures_count : Nat
  message : String
deriving DecidableEq

/-- The loop-visible state of one run: the iteration timeline, the fix
entries accumulated across the whole run, the commit counter, the final
status (initialized FAILED, agents.py line 104), and the log of phases
passed to `update_live`. -/
structure LoopState where
  ci_timeline : List IterationSummary
  all_fixes : List FixEntry
  commit_count : Nat
  final_status : String
  phases : List String
deriving DecidableEq

/-- External collaborators of one run, iteration-indexed: the aggregated
failures each execution pass yields, the `_apply_fix` environment per
(iteration, failure index), the `commit_and_push` outcome (sha or raised
exception), the iteration start timestamp, and whether a GitHub
credential is configured. -/
structure RunOracles where
  repo_dir : String
  failures : Nat → List FailureRecord
  fixEnv : Nat → Nat → FixEnv
  pushResult : Nat → PyResult String
  timeStamp : Nat → Nat
  hasPat : Bool

/-- Embedding of the sha back-fill after a successful push
(agents.py lines 177-179): every accumulated fix entry whose sha is still
null receives the new sha. -/
def backfill_sha (fixes : List FixEntry) (sha : String) : List FixEntry :=
  fixes.map (fun fe => if fe.sha = none then { fe with sha := some sha } else fe)

/-- Sequential fix application over one iteration's failures
(agents.py lines 156-164): appends each returned entry to `all_fixes` and
collects the files of entries with status fixed; an exception raised by
`_apply_fix` propagates (the loop has no per-fix handler). -/
def applyFixesSeq (or : RunOracles) (iteration : Nat) :
    List FailureRecord → Nat → List FixEntry → List String →
    PyResult (List FixEntry × List String)
  | [], _, fixes, fixed_files => .ok (fixes, fixed_files)
  | f :: rest, idx, fixes, fixed_files =>
    match (_apply_fix or.repo_dir f iteration (or.fixEnv iteration idx)).1 with
    | .exn e => .exn e
    | .ok fe =>
      applyFixesSeq or iteration rest (idx + 1) (fixes ++ [fe])
        (if fe.status = "fixed" then fixed_files ++ [fe.file] else fixed_files)

/-- The commit phase of one iteration (agents.py lines 166-182): when at
least one file was fixed, attempt a single commit and push; on success
bump the commit counter and back-fill the sha, on a caught push failure
continue.  Returns the state and `push_success`. -/
def commitPhase (or : RunOracles) (iteration : Nat) (st : LoopState)
    (fixed_files : List String) : LoopState × Bool :=
  if fixed_files.isEmpty then (st, false)
  else
    match or.pushResult iteration with
    | .ok sha =>
      ({ st with phases := st.phases ++ ["committing", "committing"],
                 commit_count := st.commit_count + 1,
                 all_fixes := backfill_sha st.all_fixes sha }, true)
    | .exn _ =>
      ({ st with phases := st.phases ++ ["committing", "committing"] }, false)

/-- The best-effort CI-poll phase (agents.py lines 184-190): entered only
when a credential is configured; the poll outcome is reporting-only and
never feeds back into loop control. -/
def ciPollPhase (or : RunOracles) (push_success : Bool) (st : LoopState) : LoopState :=
  if or.hasPat && push_success then { st with phases := st.phases ++ ["ci_poll", "ci_poll"] }
  else if or.hasPat then { st with phases := st.phases ++ ["ci_poll"] }
  else st

/-- One pass of the heal loop (agents.py lines 106-193).  The Bool result
is the `break` flag of the zero-failure exit. -/
def runOne (or : RunOracles) (iteration : Nat) (st : LoopState) :
    PyResult (LoopState × Bool) :=
  let all_failures := or.failures iteration
  let iter_status := if all_failures.isEmpty then "PASS" else "FAIL"
  let summary : IterationSummary :=
    ⟨iteration, iter_status, or.timeStamp iteration, all_failures.length,
      if all_failures.isEmpty then "All tests passed"
      else toString all_failures.length ++ " failure(s) found"⟩
  let st := { st with phases := st.phases ++ ["execution"],
                      ci_timeline := st.ci_timeline ++ [summary] }
  if all_failures.isEmpty then
    .ok ({ st with final_status := "PASSED", phases := st.phases ++ ["done"] }, true)
  else
    let st := { st with phases := st.phases ++ "fixing" :: all_failures.map (fun _ => "fixing") }
    match applyFixesSeq or iteration all_failures 0 st.all_fixes [] with
    | .exn e => .exn e
    | .ok (fixes, fixed_files) =>
      let st := { st with all_fixes := fixes }
      let committed := commitPhase or iteration st fixed_files
      let st := ciPollPhase or committed.2 committed.1
      let st := if iteration = MAX_RETRIES then { st with phases := st.phases ++ ["done"] } else st
      .ok (st, false)

/-- The `for iteration in range(1, MAX_RETRIES + 1)` driver: run the
passes in order, stopping on the zero-failure break or on an uncaught
exception. -/
def runIters (or : RunOracles) : List Nat → LoopState → PyResult LoopState
  | [], st => .ok st
  | i :: rest, st =>
    match runOne or i st with
    | .exn e => .exn e
    | .ok (st, brk) => if brk then .ok st else runIters or rest st

/-- The loop state at loop entry: empty timeline, no fixes, no commits,
final status initialized FAILED. -/
def initLoopState : LoopState := ⟨[], [], 0, "FAILED", []⟩

/-- The iterative heal loop of `run_pipeline` (agents.py lines 104-193),
from loop entry (after discovery and branching) to loop exit. -/
def run_pipeline_loop (or : RunOracles) : PyResult LoopState :=
  runIters or (List.range' 1 MAX_RETRIES) initLoopState

/- ------------------------------------------------------------------
agents.py – `_poll_github_ci`.
------------------------------------------------------------------ -/

/-- One check run of the GitHub Checks API payload; only the conclusion
field is consumed. -/
structure CheckRun where
  conclusion : Option String
deriving DecidableEq

/-- One HTTP poll outcome: a response with its status code and parsed
check runs, or a raised exception. -/
inductive PollResponse where
  | http (status : Nat) (check_runs : List CheckRun)
  | exn (msg : String)
deriving DecidableEq

/-- The conclusions list comprehension (agents.py line 413): conclusions
that are present and non-empty (Python truthiness). -/
def runConclusions (runs : List CheckRun) : List String :=
  runs.filterMap (fun r =>
    match r.conclusion with
    | some c => if c = "" then none else some c
    | none => none)

/-- The bounded poll loop of `_poll_github_ci` (agents.py lines 404-428)
over the stream of successive HTTP outcomes; the fuel is the remaining
poll count.  Sleeping is irrelevant to the decision and not modeled. -/
def pollGo : Nat → List PollResponse → String
  | 0, _ => "pending"
  | _ + 1, [] => "pending"
  | fuel + 1, r :: rest =>
    match r with
    | .exn _ => "pending"
    | .http status runs =>
      if status = 200 then
        if runs.isEmpty then pollGo fuel rest
        else
          let statuses := runConclusions runs
          if statuses.contains "failure" then "failure"
          else if statuses.all (fun s => s == "success") && !statuses.isEmpty then "success"
          else pollGo fuel rest
      else if status = 401 ∨ status = 403 then "auth_error"
      else "pending"

/-- The default poll bound (agents.py line 386). -/
def MAX_POLLS : Nat := 10

/-- Embedding of `_poll_github_ci` after a successful owner/repo URL parse
(a parse failure returns "unknown" before any poll and is outside the
decision rule). -/
def _poll_github_ci (responses : List PollResponse) : String :=
  pollGo MAX_POLLS responses

/-- A response on which the loop keeps polling: status 200 with either no
check runs yet or conclusions that are neither a failure nor a complete
success. -/
def nondecisive (r : PollResponse) : Bool :=
  match r with
  | .http status runs =>
    status == 200 &&
      (runs.isEmpty ||
        (let statuses := runConclusions runs
         !(statuses.contains "failure") &&
           !(statuses.all (fun s => s == "success") && !statuses.isEmpty)))
  | .exn _ => false

/- ------------------------------------------------------------------
main.py – `derive_branch_name`.
------------------------------------------------------------------ -/

/-- Embedding of `re.sub(r"[^A-Za-z0-9 ]", "", s)` (main.py lines 74-75). -/
def strip_special (s : String) : String :=
  String.mk (s.data.filter (fun c => c.isAlphanum || c == ' '))

/-- Embedding of `derive_branch_name` (main.py lines 67-76): strip each
identity string to alphanumerics and spaces, trim surrounding whitespace,
uppercase, replace spaces with underscores, join with an underscore, and
append the literal suffix "_AI_Fix". -/
def derive_branch_name (team_name leader_name : String) : String :=
  let team := pyReplace (pyUpper (pyStrip (strip_special team_name))) " " "_"
  let leader := pyReplace (pyUpper (pyStrip (strip_special leader_name))) " " "_"
  team ++ "_" ++ leader ++ "_AI_Fix"

/-- Modelled from the amended specification words: the same deterministic
per-identity pipeline, written as an independent composition, used to
state the refinement equality for the branch-name claim. -/
def spec_branch_name (team_name leader_name : String) : String :=
  let clean := fun (s : String) => pyReplace (pyUpper (pyStrip (strip_special s))) " " "_"
  clean team_name ++ "_" ++ clean leader_name ++ "_AI_Fix"

/- ------------------------------------------------------------------
results_generator.py – the score breakdown.
------------------------------------------------------------------ -/

/-- The score breakdown of `generate_results` (results_generator.py
lines 34-51), without the notes strings. -/
structure ScoreBreakdown where
  base : Int
  time_bonus : Int
  commit_penalty : Int
  total : Int
deriving DecidableEq

/-- Embedding of the score computation (results_generator.py lines 34-45):
base 100, time bonus 10 under the 5-minute threshold, 2 points per commit
beyond 20, and a total clamped at zero while the listed components stay
unclamped. -/
def score_breakdown (total_minutes : ℚ) (commit_count : Nat) : ScoreBreakdown :=
  let base_score : Int := 100
  let time_bonus : Int := if total_minutes < 5 then 10 else 0
  let excess_commits : Int := max 0 ((commit_count : Int) - 20)
  let commit_penalty : Int := excess_commits * 2
  let total_score : Int := base_score + time_bonus - commit_penalty
  ⟨base_score, time_bonus, commit_penalty, max 0 total_score⟩

/- ------------------------------------------------------------------
Statement vocabulary and concrete run fixtures.
------------------------------------------------------------------ -/

/-- Keyword-free test used to state the LOGIC fallback of `_classify_bug`:
none of the seventeen classifier keywords occurs in the text. -/
def matchesNoKeyword (t : String) : Bool :=
  (["indentationerror", "unexpected indent", "indentation", "syntaxerror", "invalid syntax",
    "syntax", "importerror", "modulenotfounderror", "cannot import", "typeerror", "type error",
    "unsupported operand", "flake8", "pylint", "pep8", "lint", "unused import"]).all
    (fun k => !(pyContains t k))

/-- Default entry used with `List.getD` in per-index statements. -/
def dummyFix : FixEntry := ⟨"", "", 0, "", "", "", none, 0, none⟩

/-- Fix environment whose collaborator produces a genuinely changed file. -/
def envFixed : FixEnv := ⟨some "old a", fun _ => "new a", none, none, "Fix TypeError"⟩

/-- Fix environment whose collaborator echoes the original content back. -/
def envNoop : FixEnv := ⟨some "old b", fun s => s, none, none, "msg"⟩

/-- A concrete fixable failure record. -/
def fa : FailureRecord := ⟨"a.py", 3, "TypeError: boom", "TYPE_ERROR"⟩

/-- A concrete failure record whose fix attempt produces no change. -/
def fb : FailureRecord := ⟨"b.py", 7, "IndexError: oops", "LOGIC"⟩

/-- Run fixture: iteration 1 yields one fixable and one unfixable failure,
the push succeeds with sha "abc1234", and iteration 2 is clean. -/
def orMixed : RunOracles :=
  ⟨"repo",
   fun i => if i = 1 then [fa, fb] else [],
   fun _ j => if j = 0 then envFixed else envNoop,
   fun _ => .ok "abc1234",
   fun _ => 0,
   false⟩

/-- Run fixture: every iteration yields the same unfixable failure and the
push raises, so all five retries are consumed. -/
def orAllFail : RunOracles :=
  ⟨"repo",
   fun _ => [fb],
   fun _ _ => envNoop,
   fun _ => .exn "push failed",
   fun _ => 0,
   false⟩

/-- Run fixture: the first execution pass is already clean. -/
def orClean : RunOracles :=
  ⟨"repo", fun _ => [], fun _ _ => envNoop, fun _ => .ok "s", fun _ => 42, true⟩

end CICD


namespace CICD

/- ------------------------------------------------------------------
General helper lemmas.
------------------------------------------------------------------ -/

/-- A list is a prefix of itself extended on the right. -/
theorem listIsPrefix_append (l r : List Char) : listIsPrefix l (l ++ r) = true := by
  induction l with
  | nil => rfl
  | cons a as ih => simp [listIsPrefix, ih]

/-- Appending a suffix makes `strEndsWith` hold for that suffix. -/
theorem strEndsWith_append (p q : String) : strEndsWith (p ++ q) q = true := by
  unfold strEndsWith
  rw [String.data_append, List.reverse_append]
  exact listIsPrefix_append q.data.reverse p.data.reverse

end CICD

namespace CICD

/- ------------------------------------------------------------------
Claim theorems.
------------------------------------------------------------------ -/

/-- C1: the claim says that for a failure record whose resolved target path
contains a vendor segment, `_apply_fix` returns a failed Fix Entry without
touching the file and without raising.  The source instead executes
`return fix_entry` (agents.py line 339) before `fix_entry` is assigned
(line 340), so the call raises UnboundLocalError to its caller.  This
theorem evaluates the embedding at such a failure record: the result is
the uncaught exception (the target file content is indeed untouched). -/
theorem C1_vendor_path_raises :
    _apply_fix "repo" ⟨".venv/lib/pkg/mod.py", 3, "ImportError: x", "IMPORT"⟩ 1
        ⟨some "content", fun s => s, none, none, "msg"⟩ =
      (.exn "UnboundLocalError: local variable fix_entry referenced before assignment",
        some "content") := by
  decide

/-- C5 counterexample: an error text that contains both "syntax" and
"unused import" but also the INDENTATION keyword "indentation" classifies
as INDENTATION, not SYNTAX, because INDENTATION is checked first in the
fixed precedence order.  This refutes the claim sentence quantified over
every input text containing both keywords. -/
theorem C5_precedence_cex :
    pyContains "bad indentation plus syntax error and unused import" "syntax" = true ∧
    pyContains "bad indentation plus syntax error and unused import" "unused import" = true ∧
    _classify_bug "bad indentation plus syntax error and unused import" "" = "INDENTATION" ∧
    _classify_bug "bad indentation plus syntax error and unused import" "" ≠ "SYNTAX" := by
  decide

/-- C5 amended: `_classify_bug` applies the fixed keyword precedence
INDENTATION, SYNTAX, IMPORT, TYPE_ERROR, LINTING, LOGIC against the
lower-cased error text plus full output; for every input containing both
"syntax" and "unused import" and no INDENTATION keyword the result is
SYNTAX; for input matching no keyword group the result is LOGIC; and the
result is always one of the six tags. -/
theorem C5_precedence_amended :
    (∀ text out,
        pyContains (pyLower (text ++ " " ++ out)) "indentationerror" = false →
        pyContains (pyLower (text ++ " " ++ out)) "unexpected indent" = false →
        pyContains (pyLower (text ++ " " ++ out)) "indentation" = false →
        pyContains (pyLower (text ++ " " ++ out)) "syntax" = true →
        pyContains (pyLower (text ++ " " ++ out)) "unused import" = true →
        _classify_bug text out = "SYNTAX")
  ∧ (∀ text out, matchesNoKeyword (pyLower (text ++ " " ++ out)) = true →
        _classify_bug text out = "LOGIC")
  ∧ (∀ text out,
        _classify_bug text out ∈
          ["INDENTATION", "SYNTAX", "IMPORT", "TYPE_ERROR", "LINTING", "LOGIC"]) := by
  refine ⟨?_, ?_, ?_⟩
  · intro text out h1 h2 h3 h4 _
    simp only [_classify_bug, h1, h2, h3, h4, Bool.or_false, Bool.false_or, Bool.or_true,
      if_true, if_false, Bool.false_eq_true, ite_false, ite_true]
  · intro text out h
    simp only [matchesNoKeyword, List.all_cons, List.all_nil, Bool.and_eq_true,
      Bool.not_eq_true'] at h
    obtain ⟨h1, h2, h3, h4, h5, h6, h7, h8, h9, h10, h11, h12, h13, h14, h15, h16, h17, -⟩ := h
    simp only [_classify_bug, h1, h2, h3, h4, h5, h6, h7, h8, h9, h10, h11, h12, h13, h14,
      h15, h16, h17, Bool.or_false, Bool.false_eq_true, ite_false]
  · intro text out
    simp only [_classify_bug]
    split_ifs <;> simp

/-- C5 witness: the amended SYNTAX clause applied at a concrete input. -/
theorem C5_precedence_amended_witness :
    _classify_bug "syntax error and unused import" "" = "SYNTAX" :=
  C5_precedence_amended.1 "syntax error and unused import" ""
    (by decide) (by decide) (by decide) (by decide) (by decide)

/-- C6: `_execute_and_parse` converts every outcome of the spawned command
into a `TestResult`.  A timeout yields passed false with exactly one
failure at line 0, message "Timeout", bug type LOGIC; an unexpected
exception yields the analogous single failure carrying the exception
message; a non-zero return code whose combined output parses to no
structured failure yields exactly one synthetic failure pointing at the
test file whose error message carries the combined (stripped) output. -/
theorem C6_execute_and_parse_total :
    (∀ tf, _execute_and_parse tf .timeout =
      ⟨tf, false, "", "Test run timed out after 300 seconds.",
        [⟨tf, 0, "Timeout", "LOGIC"⟩]⟩)
  ∧ (∀ tf msg, _execute_and_parse tf (.exn msg) =
      ⟨tf, false, "", msg, [⟨tf, 0, msg, "LOGIC"⟩]⟩)
  ∧ (∀ tf (rc : Int) out err, rc ≠ 0 →
      _parse_failures (out ++ "\n" ++ err) tf = [] →
      _execute_and_parse tf (.completed rc out err) =
        ⟨tf, false, out, err,
          [⟨tf, 0,
            "Test runner execution failed (return code " ++ toString rc ++ ").\n" ++
              pyStrip (out ++ "\n" ++ err),
            "LOGIC"⟩]⟩) := by
  refine ⟨fun tf => rfl, fun tf msg => rfl, ?_⟩
  intro tf rc out err hrc hparse
  simp [_execute_and_parse, hparse, beq_iff_eq, hrc]

/-- C6 witness: the synthetic-failure clause applied at a concrete failed
run whose output parses to no structured failure. -/
theorem C6_execute_and_parse_total_witness :
    _execute_and_parse "t.py" (.completed 1 "boom" "") =
      ⟨"t.py", false, "boom", "",
        [⟨"t.py", 0, "Test runner execution failed (return code 1).\nboom", "LOGIC"⟩]⟩ :=
  C6_execute_and_parse_total.2.2 "t.py" 1 "boom" "" (by decide) (by decide)

/-- C8 counterexample: the derived branch name for identities "a" and "b"
is "A_B_AI_Fix", whose suffix is the mixed-case literal "_AI_Fix"
(main.py line 76); it does not end with "_AI_FIX" as the claim states. -/
theorem C8_branch_suffix_cex :
    derive_branch_name "a" "b" = "A_B_AI_Fix" ∧
    strEndsWith (derive_branch_name "a" "b") "_AI_FIX" = false := by
  decide

/-- C8 amended: `derive_branch_name` strips each identity string to
alphanumerics and spaces, trims surrounding whitespace, uppercases,
replaces spaces with underscores, joins the two with an underscore and
appends the suffix "_AI_Fix"; in particular every derived branch name
ends with "_AI_Fix". -/
theorem C8_branch_suffix_amended :
    ∀ team leader : String,
      derive_branch_name team leader = spec_branch_name team leader ∧
      strEndsWith (derive_branch_name team leader) "_AI_Fix" = true ∧
      ∃ p, derive_branch_name team leader = p ++ "_AI_Fix" := by
  intro team leader
  refine ⟨rfl, ?_, ?_⟩
  · have h : derive_branch_name team leader =
        (pyReplace (pyUpper (pyStrip (strip_special team))) " " "_" ++ "_" ++
          pyReplace (pyUpper (pyStrip (strip_special leader))) " " "_") ++ "_AI_Fix" := by
      simp [derive_branch_name, String.append_assoc]
    rw [h]
    exact strEndsWith_append _ _
  · exact ⟨pyReplace (pyUpper (pyStrip (strip_special team))) " " "_" ++ "_" ++
      pyReplace (pyUpper (pyStrip (strip_special leader))) " " "_", by
        simp [derive_branch_name, String.append_assoc]⟩

/-- C10: the total of the score breakdown is the clamp at zero of
base 100 plus the time bonus minus the commit penalty, hence never
negative, while the reported components themselves stay unclamped — so
there are inputs where the total differs from base + bonus - penalty. -/
theorem C10_score_total_clamped :
    (∀ (m : ℚ) (c : Nat),
        (score_breakdown m c).total =
          max 0 (100 + (score_breakdown m c).time_bonus - (score_breakdown m c).commit_penalty)
        ∧ 0 ≤ (score_breakdown m c).total
        ∧ (score_breakdown m c).base = 100
        ∧ (score_breakdown m c).commit_penalty = max 0 ((c : Int) - 20) * 2)
  ∧ (∃ (m : ℚ) (c : Nat),
        (score_breakdown m c).total ≠
          (score_breakdown m c).base + (score_breakdown m c).time_bonus -
            (score_breakdown m c).commit_penalty) := by
  constructor
  · intro m c
    refine ⟨rfl, ?_, rfl, rfl⟩
    exact le_max_left 0 _
  · exact ⟨10, 100, by decide⟩

end CICD

namespace CICD

/- ------------------------------------------------------------------
Poll-loop helper lemmas.
------------------------------------------------------------------ -/

/-- A nondecisive response makes the poll loop consume one fuel unit and
continue with the rest of the stream. -/
theorem pollGo_keep (f : Nat) (r : PollResponse) (rest : List PollResponse)
    (h : nondecisive r = true) : pollGo (f + 1) (r :: rest) = pollGo f rest := by
  cases r with
  | exn m => simp [nondecisive] at h
  | http s runs =>
    simp only [nondecisive, Bool.and_eq_true, beq_iff_eq] at h
    obtain ⟨hs, hrest⟩ := h
    subst hs
    by_cases hemp : runs.isEmpty
    · simp [pollGo, hemp]
    · rw [Bool.or_eq_true] at hrest
      rcases hrest with hemp2 | hdec
      · exact absurd hemp2 hemp
      · rw [Bool.and_eq_true] at hdec
        obtain ⟨hcf, hcs⟩ := hdec
        rw [Bool.not_eq_true'] at hcf hcs
        simp only [pollGo, hcf, hcs]
        simp [hemp]

/-- A run of nondecisive responses is skipped wholesale, spending exactly
its length in fuel. -/
theorem pollGo_skip (pre : List PollResponse) (f : Nat) (rest : List PollResponse)
    (h : ∀ x ∈ pre, nondecisive x = true) :
    pollGo (pre.length + f) (pre ++ rest) = pollGo f rest := by
  induction pre with
  | nil => simp
  | cons a pre ih =>
    have ha := h a (List.mem_cons_self a pre)
    have h2 : ∀ x ∈ pre, nondecisive x = true := fun x hx => h x (List.mem_cons_of_mem a hx)
    have hlen : (a :: pre).length + f = (pre.length + f) + 1 := by
      simp [List.length_cons]
      omega
    rw [hlen, List.cons_append, pollGo_keep (pre.length + f) a (pre ++ rest) ha, ih h2]

/-- A stream of nondecisive responses exhausts any fuel and yields
pending. -/
theorem pollGo_all_nondecisive (f : Nat) (rs : List PollResponse)
    (h : ∀ x ∈ rs, nondecisive x = true) : pollGo f rs = "pending" := by
  induction rs generalizing f with
  | nil => cases f <;> rfl
  | cons a rest ih =>
    cases f with
    | zero => rfl
    | succ f =>
      rw [pollGo_keep f a rest (h a (List.mem_cons_self a rest))]
      exact ih f (fun x hx => h x (List.mem_cons_of_mem a hx))

/-- A response reporting a failure conclusion short-circuits the loop. -/
theorem pollGo_failure_step (f : Nat) (runs : List CheckRun) (rest : List PollResponse)
    (h : "failure" ∈ runConclusions runs) :
    pollGo (f + 1) (.http 200 runs :: rest) = "failure" := by
  cases runs with
  | nil => simp [runConclusions] at h
  | cons a as => simp [pollGo, h]

/-- All-success conclusions exclude a failure conclusion. -/
theorem all_success_no_failure (l : List String)
    (h : ∀ x ∈ l, x = "success") : "failure" ∉ l := by
  intro hmem
  exact absurd (h _ hmem) (by decide)

/-- A response whose present conclusions are non-empty and all success
returns success. -/
theorem pollGo_success_step (f : Nat) (runs : List CheckRun) (rest : List PollResponse)
    (hne : runConclusions runs ≠ [])
    (hall : ∀ x ∈ runConclusions runs, x = "success") :
    pollGo (f + 1) (.http 200 runs :: rest) = "success" := by
  have hcf := all_success_no_failure _ hall
  cases runs with
  | nil => simp [runConclusions] at hne
  | cons a as =>
    simp [pollGo, hcf, hall, hne]
    exact fun x hx hns => absurd (hall x hx) hns

/-- A 401 or 403 response returns the distinct auth-error outcome at
once. -/
theorem pollGo_auth_step (f s : Nat) (runs : List CheckRun) (rest : List PollResponse)
    (h : s = 401 ∨ s = 403) :
    pollGo (f + 1) (.http s runs :: rest) = "auth_error" := by
  rcases h with h | h <;> subst h <;> simp [pollGo]

/-- Any other non-200 response stops the loop with pending. -/
theorem pollGo_other_step (f s : Nat) (runs : List CheckRun) (rest : List PollResponse)
    (h200 : s ≠ 200) (h401 : s ≠ 401) (h403 : s ≠ 403) :
    pollGo (f + 1) (.http s runs :: rest) = "pending" := by
  simp [pollGo, h200, h401, h403]

/-- A raised request exception stops the loop with pending. -/
theorem pollGo_exn_step (f : Nat) (m : String) (rest : List PollResponse) :
    pollGo (f + 1) (.exn m :: rest) = "pending" := rfl

end CICD

namespace CICD

/-- C9: decision rule of the CI status poller, for every stream of HTTP
outcomes.  After any run of nondecisive responses shorter than the poll
bound: a response with some failure conclusion returns failure at once; a
response whose present conclusions are non-empty and all success returns
success; a 401 or 403 returns auth-error at once; any other non-200
response stops with pending; a raised request exception stops with
pending; and a stream that stays nondecisive (in particular one with no
check runs yet) exhausts the poll bound and yields pending. -/
theorem C9_poll_decision_rule :
    (∀ (pre : List PollResponse) (runs : List CheckRun) (post : List PollResponse),
        pre.length < MAX_POLLS → (∀ x ∈ pre, nondecisive x = true) →
        "failure" ∈ runConclusions runs →
        _poll_github_ci (pre ++ PollResponse.http 200 runs :: post) = "failure")
  ∧ (∀ (pre : List PollResponse) (runs : List CheckRun) (post : List PollResponse),
        pre.length < MAX_POLLS → (∀ x ∈ pre, nondecisive x = true) →
        runConclusions runs ≠ [] → (∀ x ∈ runConclusions runs, x = "success") →
        _poll_github_ci (pre ++ PollResponse.http 200 runs :: post) = "success")
  ∧ (∀ (pre : List PollResponse) (s : Nat) (runs : List CheckRun) (post : List PollResponse),
        pre.length < MAX_POLLS → (∀ x ∈ pre, nondecisive x = true) →
        s = 401 ∨ s = 403 →
        _poll_github_ci (pre ++ PollResponse.http s runs :: post) = "auth_error")
  ∧ (∀ (pre : List PollResponse) (s : Nat) (runs : List CheckRun) (post : List PollResponse),
        pre.length < MAX_POLLS → (∀ x ∈ pre, nondecisive x = true) →
        s ≠ 200 → s ≠ 401 → s ≠ 403 →
        _poll_github_ci (pre ++ PollResponse.http s runs :: post) = "pending")
  ∧ (∀ (pre : List PollResponse) (m : String) (post : List PollResponse),
        pre.length < MAX_POLLS → (∀ x ∈ pre, nondecisive x = true) →
        _poll_github_ci (pre ++ PollResponse.exn m :: post) = "pending")
  ∧ (∀ rs : List PollResponse, (∀ x ∈ rs, nondecisive x = true) →
        _poll_github_ci rs = "pending") := by
  have hsplit : ∀ pre : List PollResponse, pre.length < MAX_POLLS →
      ∃ k, MAX_POLLS = pre.length + (k + 1) := by
    intro pre hlen
    have h10 : pre.length < 10 := hlen
    exact ⟨10 - pre.length - 1, by unfold MAX_POLLS; omega⟩
  refine ⟨?_, ?_, ?_, ?_, ?_, ?_⟩
  · intro pre runs post hlen hpre hf
    obtain ⟨k, hk⟩ := hsplit pre hlen
    unfold _poll_github_ci
    rw [hk, pollGo_skip pre (k + 1) _ hpre, pollGo_failure_step k runs post hf]
  · intro pre runs post hlen hpre hne hall
    obtain ⟨k, hk⟩ := hsplit pre hlen
    unfold _poll_github_ci
    rw [hk, pollGo_skip pre (k + 1) _ hpre, pollGo_success_step k runs post hne hall]
  · intro pre s runs post hlen hpre hs
    obtain ⟨k, hk⟩ := hsplit pre hlen
    unfold _poll_github_ci
    rw [hk, pollGo_skip pre (k + 1) _ hpre, pollGo_auth_step k s runs post hs]
  · intro pre s runs post hlen hpre h200 h401 h403
    obtain ⟨k, hk⟩ := hsplit pre hlen
    unfold _poll_github_ci
    rw [hk, pollGo_skip pre (k + 1) _ hpre, pollGo_other_step k s runs post h200 h401 h403]
  · intro pre m post hlen hpre
    obtain ⟨k, hk⟩ := hsplit pre hlen
    unfold _poll_github_ci
    rw [hk, pollGo_skip pre (k + 1) _ hpre, pollGo_exn_step k m post]
  · intro rs h
    exact pollGo_all_nondecisive MAX_POLLS rs h

/-- C9 witness: the failure short-circuit applied after one empty-runs
poll. -/
theorem C9_poll_decision_rule_witness :
    _poll_github_ci
        [PollResponse.http 200 [], PollResponse.http 200 [⟨some "failure"⟩]] = "failure" :=
  C9_poll_decision_rule.1 [PollResponse.http 200 []] [⟨some "failure"⟩] []
    (by decide) (by decide) (by decide)

end CICD

namespace CICD

/- ------------------------------------------------------------------
Fix-applicator and heal-loop helper lemmas.
------------------------------------------------------------------ -/

/-- On a non-vendor path `_apply_fix` never raises: every branch of the
function body returns an entry. -/
theorem _apply_fix_ok (repo : String) (f : FailureRecord) (i : Nat) (env : FixEnv)
    (h : is_vendor_path (repo ++ "/" ++ f.file) = false) :
    ∃ fe, (_apply_fix repo f i env).1 = .ok fe := by
  rcases env with ⟨disk, llm, rr, wr, ex⟩
  simp only [_apply_fix, h, Bool.false_eq_true, if_false]
  cases disk with
  | none => exact ⟨_, rfl⟩
  | some orig =>
    cases rr with
    | some e => exact ⟨_, rfl⟩
    | none =>
      dsimp only
      by_cases hc : llm orig ≠ "" ∧ llm orig ≠ orig
      · rw [if_pos hc]
        cases wr with
        | some e => exact ⟨_, rfl⟩
        | none => exact ⟨_, rfl⟩
      · rw [if_neg hc]
        exact ⟨_, rfl⟩

/-- Sequential fix application succeeds whenever no failure in the batch
resolves to a vendor path. -/
theorem applyFixesSeq_ok (or : RunOracles) (iteration : Nat) :
    ∀ (l : List FailureRecord) (idx : Nat) (fixes : List FixEntry) (files : List String),
      (∀ f ∈ l, is_vendor_path (or.repo_dir ++ "/" ++ f.file) = false) →
      ∃ out, applyFixesSeq or iteration l idx fixes files = .ok out := by
  intro l
  induction l with
  | nil => intro idx fixes files _; exact ⟨_, rfl⟩
  | cons f rest ih =>
    intro idx fixes files h
    obtain ⟨fe, hfe⟩ := _apply_fix_ok or.repo_dir f iteration (or.fixEnv iteration idx)
      (h f (List.mem_cons_self f rest))
    simp only [applyFixesSeq, hfe]
    exact ih (idx + 1) (fixes ++ [fe])
      (if fe.status = "fixed" then files ++ [fe.file] else files)
      (fun x hx => h x (List.mem_cons_of_mem f hx))

/-- The commit phase leaves the iteration timeline untouched. -/
theorem commitPhase_timeline (or : RunOracles) (i : Nat) (st : LoopState)
    (files : List String) : (commitPhase or i st files).1.ci_timeline = st.ci_timeline := by
  unfold commitPhase
  split
  · rfl
  · cases or.pushResult i <;> rfl

/-- The commit phase leaves the final status untouched. -/
theorem commitPhase_status (or : RunOracles) (i : Nat) (st : LoopState)
    (files : List String) : (commitPhase or i st files).1.final_status = st.final_status := by
  unfold commitPhase
  split
  · rfl
  · cases or.pushResult i <;> rfl

/-- The CI-poll phase leaves the iteration timeline untouched. -/
theorem ciPollPhase_timeline (or : RunOracles) (b : Bool) (st : LoopState) :
    (ciPollPhase or b st).ci_timeline = st.ci_timeline := by
  unfold ciPollPhase
  split_ifs <;> rfl

/-- The CI-poll phase leaves the final status untouched. -/
theorem ciPollPhase_status (or : RunOracles) (b : Bool) (st : LoopState) :
    (ciPollPhase or b st).final_status = st.final_status := by
  unfold ciPollPhase
  split_ifs <;> rfl

/-- A clean execution pass appends one PASS summary, sets the final status
PASSED and breaks, running no fixing, committing or CI-poll phase. -/
theorem runOne_pass (or : RunOracles) (i : Nat) (st : LoopState)
    (h : or.failures i = []) :
    runOne or i st = .ok
      ({ st with
          phases := st.phases ++ ["execution"] ++ ["done"],
          ci_timeline :=
            st.ci_timeline ++ [⟨i, "PASS", or.timeStamp i, 0, "All tests passed"⟩],
          final_status := "PASSED" }, true) := by
  simp [runOne, h]

/-- A failing execution pass appends one FAIL summary, keeps the final
status, and continues (no break), provided no failure of the pass
resolves to a vendor path. -/
theorem runOne_fail (or : RunOracles) (i : Nat) (st : LoopState)
    (hne : or.failures i ≠ [])
    (hv : ∀ f ∈ or.failures i, is_vendor_path (or.repo_dir ++ "/" ++ f.file) = false) :
    ∃ st2, runOne or i st = .ok (st2, false) ∧
      st2.ci_timeline = st.ci_timeline ++
        [⟨i, "FAIL", or.timeStamp i, (or.failures i).length,
          toString (or.failures i).length ++ " failure(s) found"⟩] ∧
      st2.final_status = st.final_status := by
  have hemp : (or.failures i).isEmpty = false := by
    cases h : or.failures i with
    | nil => exact absurd h hne
    | cons a as => rfl
  obtain ⟨out, hout⟩ := applyFixesSeq_ok or i (or.failures i) 0 st.all_fixes [] hv
  rcases out with ⟨fixes, files⟩
  simp only [runOne, hemp, Bool.false_eq_true, if_false]
  rw [hout]
  refine ⟨_, rfl, ?_, ?_⟩
  · by_cases hm : i = MAX_RETRIES <;>
      simp [hm, ciPollPhase_timeline, commitPhase_timeline]
  · by_cases hm : i = MAX_RETRIES <;>
      simp [hm, ciPollPhase_status, commitPhase_status]

/-- Every successful pass appends exactly one iteration summary. -/
theorem runOne_ok_timeline (or : RunOracles) (i : Nat) (st st2 : LoopState) (b : Bool)
    (h : runOne or i st = .ok (st2, b)) :
    ∃ s, st2.ci_timeline = st.ci_timeline ++ [s] := by
  by_cases hemp : (or.failures i).isEmpty
  · have h0 : or.failures i = [] := by
      cases he : or.failures i with
      | nil => rfl
      | cons a as => rw [he] at hemp; simp at hemp
    rw [runOne_pass or i st h0] at h
    simp only [PyResult.ok.injEq, Prod.mk.injEq] at h
    obtain ⟨h1, -⟩ := h
    refine ⟨⟨i, "PASS", or.timeStamp i, 0, "All tests passed"⟩, ?_⟩
    rw [← h1]
  · have hemp2 : (or.failures i).isEmpty = false := by
      cases hb : (or.failures i).isEmpty
      · rfl
      · exact absurd hb hemp
    simp only [runOne, hemp2, Bool.false_eq_true, if_false] at h
    cases happ : applyFixesSeq or i (or.failures i) 0 st.all_fixes [] with
    | exn e => rw [happ] at h; simp at h
    | ok out =>
      rcases out with ⟨fixes, files⟩
      rw [happ] at h
      simp only [PyResult.ok.injEq, Prod.mk.injEq] at h
      obtain ⟨h1, -⟩ := h
      refine ⟨⟨i, "FAIL", or.timeStamp i, (or.failures i).length,
        toString (or.failures i).length ++ " failure(s) found"⟩, ?_⟩
      rw [← h1]
      by_cases hm : i = MAX_RETRIES <;>
        simp [hm, ciPollPhase_timeline, commitPhase_timeline]

/-- The iteration driver appends at most one summary per scheduled pass. -/
theorem runIters_timeline_le (or : RunOracles) :
    ∀ (l : List Nat) (st st2 : LoopState), runIters or l st = .ok st2 →
      st2.ci_timeline.length ≤ st.ci_timeline.length + l.length := by
  intro l
  induction l with
  | nil =>
    intro st st2 h
    simp only [runIters, PyResult.ok.injEq] at h
    subst h
    simp
  | cons i rest ih =>
    intro st st2 h
    simp only [runIters] at h
    cases ho : runOne or i st with
    | exn e => rw [ho] at h; simp at h
    | ok p =>
      rcases p with ⟨st1, b⟩
      rw [ho] at h
      obtain ⟨s, hs⟩ := runOne_ok_timeline or i st st1 b ho
      cases b with
      | true =>
        simp only [if_true, PyResult.ok.injEq] at h
        subst h
        rw [hs]
        simp [List.length_append, List.length_cons]
      | false =>
        simp only [Bool.false_eq_true, if_false] at h
        have hle := ih st1 st2 h
        rw [hs] at hle
        simp only [List.length_append, List.length_singleton] at hle
        simp only [List.length_cons]
        omega

end CICD

namespace CICD

/-- C2: the heal loop runs at most MAX_RETRIES (5) passes — the timeline
never exceeds five summaries — and a run in which every one of the five
passes yields at least one failure (none resolving to a vendor path, so
no fix attempt raises) completes all five passes and ends with final
status FAILED and exactly five iteration summaries. -/
theorem C2_retry_loop_bounded :
    (∀ (or : RunOracles) (st : LoopState), run_pipeline_loop or = .ok st →
        st.ci_timeline.length ≤ MAX_RETRIES)
  ∧ (∀ or : RunOracles,
      (∀ i, 1 ≤ i → i ≤ MAX_RETRIES → or.failures i ≠ []) →
      (∀ i f, 1 ≤ i → i ≤ MAX_RETRIES → f ∈ or.failures i →
        is_vendor_path (or.repo_dir ++ "/" ++ f.file) = false) →
      ∃ st, run_pipeline_loop or = .ok st ∧ st.final_status = "FAILED" ∧
        st.ci_timeline.length = MAX_RETRIES) := by
  constructor
  · intro or st h
    have hle := runIters_timeline_le or (List.range' 1 MAX_RETRIES) initLoopState st h
    simpa [initLoopState, MAX_RETRIES] using hle
  · intro or H1 H2
    obtain ⟨s1, e1, t1, f1⟩ := runOne_fail or 1 initLoopState
      (H1 1 (by decide) (by decide)) (fun f hf => H2 1 f (by decide) (by decide) hf)
    obtain ⟨s2, e2, t2, f2⟩ := runOne_fail or 2 s1
      (H1 2 (by decide) (by decide)) (fun f hf => H2 2 f (by decide) (by decide) hf)
    obtain ⟨s3, e3, t3, f3⟩ := runOne_fail or 3 s2
      (H1 3 (by decide) (by decide)) (fun f hf => H2 3 f (by decide) (by decide) hf)
    obtain ⟨s4, e4, t4, f4⟩ := runOne_fail or 4 s3
      (H1 4 (by decide) (by decide)) (fun f hf => H2 4 f (by decide) (by decide) hf)
    obtain ⟨s5, e5, t5, f5⟩ := runOne_fail or 5 s4
      (H1 5 (by decide) (by decide)) (fun f hf => H2 5 f (by decide) (by decide) hf)
    refine ⟨s5, ?_, ?_, ?_⟩
    · show runIters or (List.range' 1 MAX_RETRIES) initLoopState = .ok s5
      rw [show List.range' 1 MAX_RETRIES = [1, 2, 3, 4, 5] from rfl]
      simp [runIters, e1, e2, e3, e4, e5]
    · rw [f5, f4, f3, f2, f1]
      rfl
    · rw [t5, t4, t3, t2, t1]
      simp [initLoopState, MAX_RETRIES]

/-- C2 witness: a run whose every pass yields one non-vendor failure and
whose pushes raise consumes all five retries and reports FAILED with five
summaries. -/
theorem C2_retry_loop_bounded_witness :
    ∃ st, run_pipeline_loop orAllFail = .ok st ∧ st.final_status = "FAILED" ∧
      st.ci_timeline.length = MAX_RETRIES :=
  C2_retry_loop_bounded.2 orAllFail
    (fun i _ _ => by simp [orAllFail])
    (fun i f _ _ hf => by
      simp [orAllFail] at hf
      subst hf
      decide)

/-- C3: a run whose first execution pass yields zero aggregated failures
records exactly one iteration summary with status PASS, runs no fixing,
committing or CI-poll phase, applies no fix and makes no commit, and ends
with final status PASSED. -/
theorem C3_first_pass_clean :
    ∀ or : RunOracles, or.failures 1 = [] →
      ∃ st, run_pipeline_loop or = .ok st ∧
        st.final_status = "PASSED" ∧
        st.ci_timeline = [⟨1, "PASS", or.timeStamp 1, 0, "All tests passed"⟩] ∧
        st.all_fixes = [] ∧ st.commit_count = 0 ∧
        st.phases = ["execution", "done"] ∧
        "fixing" ∉ st.phases ∧ "committing" ∉ st.phases ∧ "ci_poll" ∉ st.phases := by
  intro or h
  have e := runOne_pass or 1 initLoopState h
  refine ⟨{ ci_timeline := [⟨1, "PASS", or.timeStamp 1, 0, "All tests passed"⟩],
            all_fixes := [], commit_count := 0, final_status := "PASSED",
            phases := ["execution", "done"] },
    ?_, rfl, rfl, rfl, rfl, rfl, by simp, by simp, by simp⟩
  show runIters or (List.range' 1 MAX_RETRIES) initLoopState = _
  rw [show List.range' 1 MAX_RETRIES = [1, 2, 3, 4, 5] from rfl]
  simp only [runIters, e]
  rfl

/-- C3 witness: the clean-first-pass behavior at a concrete run. -/
theorem C3_first_pass_clean_witness :
    ∃ st, run_pipeline_loop orClean = .ok st ∧
      st.final_status = "PASSED" ∧
      st.ci_timeline = [⟨1, "PASS", orClean.timeStamp 1, 0, "All tests passed"⟩] ∧
      st.all_fixes = [] ∧ st.commit_count = 0 ∧
      st.phases = ["execution", "done"] ∧
      "fixing" ∉ st.phases ∧ "committing" ∉ st.phases ∧ "ci_poll" ∉ st.phases :=
  C3_first_pass_clean orClean rfl

/-- C4: when the patch returned by the code-generation collaborator is
empty or identical to the original content, `_apply_fix` leaves the file
content unchanged and returns an entry with status failed, empty commit
message and no recorded error — the no-op is not treated as an
exception. -/
theorem C4_noop_patch_failed :
    ∀ (repo : String) (failure : FailureRecord) (iteration : Nat) (env : FixEnv)
      (original : String),
      is_vendor_path (repo ++ "/" ++ failure.file) = false →
      env.disk = some original →
      env.readRaises = none →
      (env.llm original = "" ∨ env.llm original = original) →
      _apply_fix repo failure iteration env =
        (.ok ⟨failure.file, failure.bug_type, failure.line, failure.error_message, "",
          "failed", none, iteration, none⟩, some original) := by
  intro repo failure iteration env original hv hd hr hllm
  have hc : ¬(env.llm original ≠ "" ∧ env.llm original ≠ original) := by
    rcases hllm with h | h <;> simp [h]
  simp only [_apply_fix, hv, Bool.false_eq_true, if_false, hd, hr]
  rw [if_neg hc]

/-- C4 witness: the no-op clause at a concrete failure whose collaborator
echoes the original content. -/
theorem C4_noop_patch_failed_witness :
    _apply_fix "repo" fb 1 envNoop =
      (.ok ⟨"b.py", "LOGIC", 7, "IndexError: oops", "", "failed", none, 1, none⟩,
        some "old b") :=
  C4_noop_patch_failed "repo" fb 1 envNoop "old b" (by decide) rfl rfl (Or.inr rfl)

/-- C7 counterexample: in a run whose first iteration yields one fixed and
one failed fix entry, the successful push of the one-file batch (only
"a.py" is staged) back-fills the sha onto the failed entry for "b.py" as
well (agents.py lines 177-179 gate only on a null sha, not on batch
membership), so a Fix Entry outside the pushed batch does not remain
unchanged as the claim states. -/
theorem C7_sha_backfill_cex :
    (match run_pipeline_loop orMixed with
     | .ok st => st.all_fixes.map (fun fe => (fe.file, fe.status, fe.sha))
     | .exn _ => []) =
      [("a.py", "fixed", some "abc1234"), ("b.py", "failed", some "abc1234")] := by
  decide

/-- C7 amended: after a successful commit and push, the sha is back-filled
onto every accumulated Fix Entry whose sha is still null — including
entries with status failed and entries whose file was not part of the
pushed batch — while every other field of every entry is unchanged and
entries already carrying a sha keep it. -/
theorem C7_sha_backfill_amended :
    ∀ (fixes : List FixEntry) (sha : String),
      List.Forall₂
        (fun fe fe2 =>
          fe2.file = fe.file ∧ fe2.bug_type = fe.bug_type ∧ fe2.line = fe.line ∧
          fe2.error_message = fe.error_message ∧ fe2.commit_message = fe.commit_message ∧
          fe2.status = fe.status ∧ fe2.iteration = fe.iteration ∧ fe2.error = fe.error ∧
          (fe.sha = none → fe2.sha = some sha) ∧
          (fe.sha ≠ none → fe2.sha = fe.sha))
        fixes (backfill_sha fixes sha) := by
  intro fixes sha
  induction fixes with
  | nil => exact List.Forall₂.nil
  | cons fe rest ih =>
    simp only [backfill_sha, List.map_cons]
    refine List.Forall₂.cons ?_ ih
    by_cases hs : fe.sha = none
    · simp [hs]
    · simp [hs]

/-- C7 auxiliary witness: the amended back-fill behavior at a one-entry
list with a null sha. -/
theorem C7_sha_backfill_amended_witness :
    List.Forall₂
      (fun fe fe2 =>
        fe2.file = fe.file ∧ fe2.bug_type = fe.bug_type ∧ fe2.line = fe.line ∧
        fe2.error_message = fe.error_message ∧ fe2.commit_message = fe.commit_message ∧
        fe2.status = fe.status ∧ fe2.iteration = fe.iteration ∧ fe2.error = fe.error ∧
        (fe.sha = none → fe2.sha = some "abc1234") ∧
        (fe.sha ≠ none → fe2.sha = fe.sha))
      [dummyFix] (backfill_sha [dummyFix] "abc1234") :=
  C7_sha_backfill_amended [dummyFix] "abc1234"

end CICD
